import Mathlib

/-!
Verification of the EWPUAE padel tournament-registration app.

The relevant TypeScript is shallowly embedded:
* millisecond timestamps become `ℚ` (JS numbers; all values arising in the
  embedded code are exact decimals, so rationals are a faithful carrier);
* `null`/`undefined` become `Option`;
* Firestore document collections become lists inside an explicit `DbState`,
  and each event handler becomes a function `DbState → DbState`;
* JS string primitives (`includes`, `replace(/[^0-9]/g,'')`, `parseInt`,
  `match(/[0-9.]+/)`, `parseFloat` on digit-and-dot runs) are modelled by
  executable helpers below.
-/

namespace EWP

/-! ## JS string helpers -/

/-- List-level prefix test (Boolean, executable). -/
def isPre : List Char → List Char → Bool
  | [], _ => true
  | _ :: _, [] => false
  | a :: as, b :: bs => a == b && isPre as bs

/-- Does `sub` occur as a contiguous run inside `cs`?  Models JS
`String.prototype.includes`. -/
def hasRun (sub : List Char) : List Char → Bool
  | [] => sub.isEmpty
  | c :: cs => isPre sub (c :: cs) || hasRun sub cs

/-- JS `s.includes(sub)`. -/
def jsIncludes (s sub : String) : Bool :=
  hasRun sub.toList s.toList

/-- JS `s.toLowerCase()`, modelled characterwise (the inputs of interest are
ASCII, where JS and `Char.toLower` agree). -/
def jsToLower (s : String) : String :=
  String.mk (s.toList.map Char.toLower)

/-- JS `s.trim()`: drop whitespace from both ends. -/
def jsTrim (s : String) : String :=
  String.mk (((s.toList.dropWhile Char.isWhitespace).reverse.dropWhile
    Char.isWhitespace).reverse)

/-- JS `s.replace(/[^0-9]/g, '')`: keep only decimal digits. -/
def digitsOf (s : String) : String :=
  String.mk (s.toList.filter Char.isDigit)

/-- Decimal value of a digit list (applied only to digit-only lists). -/
def natOfDigits (cs : List Char) : Nat :=
  cs.foldl (fun acc c => acc * 10 + (c.toNat - 48)) 0

/-- JS `parseInt(s, 10)` restricted to digit-only strings, as produced by
`digitsOf`: `none` models `NaN` (empty input). -/
def jsParseInt (s : String) : Option Nat :=
  if s = "" then none else some (natOfDigits s.toList)

/-- Character class of the regex `[0-9.]`. -/
def isNumDotChar (c : Char) : Bool :=
  c.isDigit || c == '.'

/-- JS `s.match(/[0-9.]+/)`: the first maximal run of digits and dots. -/
def firstNumRun : List Char → Option (List Char)
  | [] => none
  | c :: cs =>
      if isNumDotChar c then some (c :: cs.takeWhile isNumDotChar)
      else firstNumRun cs

/-- JS `parseFloat` applied to a run of digits and dots: the longest valid
numeric prefix `digits [. digits]`; `none` models `NaN` (no digit found). -/
def jsParseFloatRun (cs : List Char) : Option ℚ :=
  let d1 := cs.takeWhile Char.isDigit
  let rest := cs.drop d1.length
  let d2 := match rest with
    | '.' :: r => r.takeWhile Char.isDigit
    | _ => []
  if d1.isEmpty && d2.isEmpty then none
  else some ((natOfDigits d1 : ℚ) + (natOfDigits d2 : ℚ) / ((10 : ℚ) ^ d2.length))

/-- The digit lists before and after the decimal point that `jsParseFloatRun`
combines; kept `ℚ`-free so that concrete runs are decidable. -/
def jsParseFloatParts (cs : List Char) : Option (List Char × List Char) :=
  let d1 := cs.takeWhile Char.isDigit
  let rest := cs.drop d1.length
  let d2 := match rest with
    | '.' :: r => r.takeWhile Char.isDigit
    | _ => []
  if d1.isEmpty && d2.isEmpty then none else some (d1, d2)

/-- JS `x || d` for an optional string `x`: the empty string is falsy. -/
def jsOr (x : Option String) (d : String) : String :=
  match x with
  | none => d
  | some v => if v = "" then d else v

/-! ## `src/lib/date-utils.ts` -/

/-- `timestampToMillis`: a missing timestamp becomes `0`. -/
def timestampToMillis (timestamp : Option ℚ) : ℚ :=
  match timestamp with
  | none => 0
  | some t => t

/-- `parseDurationToMillis` from `date-utils.ts`.  The `Timestamp` argument
is already milliseconds; the ambient `Date.now()` of the original appears
as explicit `now` parameters in the status functions below. -/
def parseDurationToMillis (durationStr : Option String) : ℚ :=
  match durationStr with
  | none => 60 * 60 * 1000
  | some s =>
      if s = "" then 60 * 60 * 1000
      else
        let lower := jsTrim (jsToLower s)
        if jsIncludes lower "min" then
          match jsParseInt (digitsOf lower) with
          | none => 60 * 60 * 1000
          | some minutes => (minutes : ℚ) * 60 * 1000
        else if jsIncludes lower "hour" || jsIncludes lower "hr" then
          (((firstNumRun lower.toList).bind jsParseFloatRun).getD 1) * (60 * 60 * 1000)
        else 60 * 60 * 1000

/-- `getEventStatus` from `date-utils.ts` (the 24-hour-window variant). -/
def getEventStatus (now : ℚ) (eventDateTime : Option ℚ)
    (currentStatus : Option String) : String :=
  if currentStatus = some "Cancelled" then "Cancelled"
  else
    match eventDateTime with
    | none => "Upcoming"
    | some _ =>
        let eventMillis := timestampToMillis eventDateTime
        if eventMillis > now then "Upcoming"
        else if eventMillis ≤ now ∧ eventMillis > now - 24 * 60 * 60 * 1000 then "Active"
        else "Past"

/-- `calculateEventStatus` from `date-utils.ts` (the duration-based variant). -/
def calculateEventStatus (now : ℚ) (eventDateTime : Option ℚ)
    (durationStr : Option String) : String :=
  match eventDateTime with
  | none => "Upcoming"
  | some _ =>
      let start := timestampToMillis eventDateTime
      let duration := parseDurationToMillis durationStr
      let endTime := start + duration
      if now < start then "Upcoming"
      else if now ≥ start ∧ now ≤ endTime then "Active"
      else "Past"

/-! Branch evaluation lemmas for `parseDurationToMillis`. -/

theorem jsParseFloatRun_eq_parts (cs : List Char) :
    jsParseFloatRun cs
      = (jsParseFloatParts cs).map
          (fun p => (natOfDigits p.1 : ℚ) + (natOfDigits p.2 : ℚ) / 10 ^ p.2.length) := by
  simp only [jsParseFloatRun, jsParseFloatParts]
  split
  · simp
  · simp

theorem parseDurationToMillis_none : parseDurationToMillis none = 3600000 := by
  norm_num [parseDurationToMillis]

theorem parseDurationToMillis_empty : parseDurationToMillis (some "") = 3600000 := by
  norm_num [parseDurationToMillis]

theorem parseDurationToMillis_min_branch (s : String) (h0 : ¬ s = "")
    (h1 : jsIncludes (jsTrim (jsToLower s)) "min" = true) :
    parseDurationToMillis (some s) =
      (match jsParseInt (digitsOf (jsTrim (jsToLower s))) with
        | none => ((60 : ℚ) * 60 * 1000)
        | some minutes => (minutes : ℚ) * 60 * 1000) := by
  simp only [parseDurationToMillis, if_neg h0, h1, if_true]

theorem parseDurationToMillis_hour_branch (s : String) (h0 : ¬ s = "")
    (h1 : jsIncludes (jsTrim (jsToLower s)) "min" = false)
    (h2 : (jsIncludes (jsTrim (jsToLower s)) "hour"
            || jsIncludes (jsTrim (jsToLower s)) "hr") = true) :
    parseDurationToMillis (some s) =
      (((firstNumRun (jsTrim (jsToLower s)).toList).bind jsParseFloatRun).getD 1)
        * (60 * 60 * 1000) := by
  simp only [parseDurationToMillis, if_neg h0, h1, h2, if_true, Bool.false_eq_true,
    if_false]

theorem parseDurationToMillis_default_branch (s : String)
    (h1 : jsIncludes (jsTrim (jsToLower s)) "min" = false)
    (h2 : jsIncludes (jsTrim (jsToLower s)) "hour" = false)
    (h3 : jsIncludes (jsTrim (jsToLower s)) "hr" = false) :
    parseDurationToMillis (some s) = 3600000 := by
  by_cases h0 : s = ""
  · subst h0; exact parseDurationToMillis_empty
  · simp only [parseDurationToMillis, if_neg h0, h1, h2, h3, Bool.or_self,
      Bool.false_eq_true, if_false]
    norm_num

example : parseDurationToMillis (some "90 min") = 5400000 := by
  rw [parseDurationToMillis_min_branch _ (by decide) (by decide)]
  have h : jsParseInt (digitsOf (jsTrim (jsToLower "90 min"))) = some 90 := by decide
  rw [h]
  norm_num

example : parseDurationToMillis (some "1.5 hours") = 5400000 := by
  rw [parseDurationToMillis_hour_branch _ (by decide) (by decide) (by decide)]
  have h : firstNumRun (jsTrim (jsToLower "1.5 hours")).toList = some (['1', '.', '5']) := by
    decide
  rw [h]
  have hp : jsParseFloatParts ['1', '.', '5'] = some (['1'], ['5']) := by decide
  have n1 : natOfDigits ['1'] = 1 := by decide
  have n5 : natOfDigits ['5'] = 5 := by decide
  simp only [Option.some_bind, jsParseFloatRun_eq_parts, hp, Option.map_some', n1, n5,
    List.length_cons, List.length_nil, Option.getD_some]
  norm_num

example : parseDurationToMillis (some "soon") = 3600000 :=
  parseDurationToMillis_default_branch _ (by decide) (by decide) (by decide)

theorem jsParseFloatRun_nonneg (cs : List Char) (q : ℚ)
    (h : jsParseFloatRun cs = some q) : 0 ≤ q := by
  rw [jsParseFloatRun_eq_parts] at h
  rcases hp : jsParseFloatParts cs with _ | p
  · rw [hp] at h; simp at h
  · rw [hp] at h
    simp only [Option.map_some', Option.some.injEq] at h
    rw [← h]
    positivity

theorem parseDurationToMillis_nonneg (d : Option String) :
    0 ≤ parseDurationToMillis d := by
  rcases d with _ | s
  · rw [parseDurationToMillis_none]; norm_num
  · by_cases h0 : s = ""
    · subst h0; rw [parseDurationToMillis_empty]; norm_num
    · rcases hmin : jsIncludes (jsTrim (jsToLower s)) "min" with _ | _
      · rcases hor : (jsIncludes (jsTrim (jsToLower s)) "hour"
            || jsIncludes (jsTrim (jsToLower s)) "hr") with _ | _
        · rw [Bool.or_eq_false_iff] at hor
          rw [parseDurationToMillis_default_branch s hmin hor.1 hor.2]
          norm_num
        · rw [parseDurationToMillis_hour_branch s h0 hmin hor]
          rcases hb : (firstNumRun (jsTrim (jsToLower s)).toList).bind jsParseFloatRun
            with _ | q
          · rw [Option.getD_none]; norm_num
          · rcases Option.bind_eq_some.mp hb with ⟨run, _, hq⟩
            rw [Option.getD_some]
            have hq0 := jsParseFloatRun_nonneg run q hq
            have : (0 : ℚ) ≤ 60 * 60 * 1000 := by norm_num
            exact mul_nonneg hq0 this
      · rw [parseDurationToMillis_min_branch s h0 hmin]
        rcases jsParseInt (digitsOf (jsTrim (jsToLower s))) with _ | m
        · norm_num
        · have : (0 : ℚ) ≤ (m : ℚ) := by positivity
          simp only []
          have h60 : (0 : ℚ) ≤ 60 * 1000 := by norm_num
          calc (0 : ℚ) = 0 * (60 * 1000) := by ring
          _ ≤ (m : ℚ) * 60 * 1000 := by nlinarith

/-- C9: `parseDurationToMillis` never throws (it is a total function in this
embedding) and returns 3600000 ms for `null`/`undefined` input, for the empty
string, and for input containing none of the substrings "min", "hour", "hr"
case-insensitively (expressed on the JS-lowercased, trimmed string exactly as
the code computes it); input containing "min" but no digit falls back to
60 minutes, and input containing "hour"/"hr" but no parseable number falls
back to 1 hour — both again 3600000 ms. -/
theorem parseDurationToMillis_fallback_spec (s : String) :
    parseDurationToMillis none = 3600000
  ∧ parseDurationToMillis (some "") = 3600000
  ∧ (jsIncludes (jsTrim (jsToLower s)) "min" = false →
      jsIncludes (jsTrim (jsToLower s)) "hour" = false →
      jsIncludes (jsTrim (jsToLower s)) "hr" = false →
      parseDurationToMillis (some s) = 3600000)
  ∧ (jsIncludes (jsTrim (jsToLower s)) "min" = true →
      digitsOf (jsTrim (jsToLower s)) = "" →
      parseDurationToMillis (some s) = 3600000)
  ∧ (jsIncludes (jsTrim (jsToLower s)) "min" = false →
      (jsIncludes (jsTrim (jsToLower s)) "hour"
        || jsIncludes (jsTrim (jsToLower s)) "hr") = true →
      (firstNumRun (jsTrim (jsToLower s)).toList).bind jsParseFloatRun = none →
      parseDurationToMillis (some s) = 3600000) := by
  refine ⟨parseDurationToMillis_none, parseDurationToMillis_empty, ?_, ?_, ?_⟩
  · exact fun h1 h2 h3 => parseDurationToMillis_default_branch s h1 h2 h3
  · intro h1 h2
    by_cases h0 : s = ""
    · subst h0; exact parseDurationToMillis_empty
    · rw [parseDurationToMillis_min_branch s h0 h1, h2]
      norm_num [jsParseInt]
  · intro h1 h2 h3
    by_cases h0 : s = ""
    · subst h0; exact absurd h2 (by decide)
    · rw [parseDurationToMillis_hour_branch s h0 h1 h2, h3, Option.getD_none]
      norm_num

theorem parseDurationToMillis_fallback_spec_witness :
    parseDurationToMillis (some "soon") = 3600000 :=
  (parseDurationToMillis_fallback_spec "soon").2.2.1 (by decide) (by decide) (by decide)

/-- C3: `calculateEventStatus` returns "Upcoming" strictly before the event
start `t`, "Active" between `t` and `t + parseDurationToMillis d` inclusive,
"Past" strictly after that end time, and "Upcoming" when the timestamp is
`null`/`undefined`. -/
theorem calculateEventStatus_spec (now t : ℚ) (d : Option String) :
    (now < t → calculateEventStatus now (some t) d = "Upcoming")
  ∧ (t ≤ now → now ≤ t + parseDurationToMillis d →
      calculateEventStatus now (some t) d = "Active")
  ∧ (t + parseDurationToMillis d < now →
      calculateEventStatus now (some t) d = "Past")
  ∧ calculateEventStatus now none d = "Upcoming" := by
  refine ⟨?_, ?_, ?_, rfl⟩
  · intro h
    simp only [calculateEventStatus, timestampToMillis]
    rw [if_pos h]
  · intro h1 h2
    simp only [calculateEventStatus, timestampToMillis]
    rw [if_neg (not_lt.mpr h1), if_pos ⟨h1, h2⟩]
  · intro h
    have hd : 0 ≤ parseDurationToMillis d := parseDurationToMillis_nonneg d
    have ht : t ≤ now := by linarith
    simp only [calculateEventStatus, timestampToMillis]
    rw [if_neg (not_lt.mpr ht), if_neg]
    intro hcon
    exact absurd h (not_lt.mpr hcon.2)

theorem calculateEventStatus_spec_witness :
    calculateEventStatus 50 (some 100) none = "Upcoming"
  ∧ calculateEventStatus 100 (some 100) none = "Active"
  ∧ calculateEventStatus 99999999 (some 100) none = "Past"
  ∧ calculateEventStatus 0 none none = "Upcoming" :=
  ⟨(calculateEventStatus_spec 50 100 none).1 (by norm_num),
   (calculateEventStatus_spec 100 100 none).2.1 (by norm_num)
     (by rw [parseDurationToMillis_none]; norm_num),
   (calculateEventStatus_spec 99999999 100 none).2.2.1
     (by rw [parseDurationToMillis_none]; norm_num),
   (calculateEventStatus_spec 0 0 none).2.2.2⟩

/-- C8: `getEventStatus` returns "Cancelled" exactly when its `currentStatus`
argument is the string "Cancelled", regardless of the timestamp; when the
status is not "Cancelled" and the timestamp is `null`/`undefined` it returns
"Upcoming". -/
theorem getEventStatus_cancelled_spec (now : ℚ) (e : Option ℚ) (c : Option String) :
    (getEventStatus now e c = "Cancelled" ↔ c = some "Cancelled")
  ∧ (c ≠ some "Cancelled" → e = none → getEventStatus now e c = "Upcoming") := by
  unfold getEventStatus
  by_cases hc : c = some "Cancelled"
  · rw [if_pos hc]
    exact ⟨⟨fun _ => hc, fun _ => rfl⟩, fun h _ => absurd hc h⟩
  · rw [if_neg hc]
    refine ⟨⟨?_, fun h => absurd h hc⟩, ?_⟩
    · intro h
      exfalso
      rcases e with _ | t
      · change "Upcoming" = "Cancelled" at h
        exact absurd h (by decide)
      · change (if timestampToMillis (some t) > now then "Upcoming"
            else if timestampToMillis (some t) ≤ now ∧
              timestampToMillis (some t) > now - 24 * 60 * 60 * 1000 then "Active"
            else "Past") = "Cancelled" at h
        revert h
        split
        · decide
        · split
          · decide
          · decide
    · intro _ he
      rw [he]

theorem getEventStatus_cancelled_spec_witness :
    getEventStatus 0 (some 100) (some "Cancelled") = "Cancelled"
  ∧ getEventStatus 0 none (some "Upcoming") = "Upcoming" :=
  ⟨(getEventStatus_cancelled_spec 0 (some 100) (some "Cancelled")).1.mpr rfl,
   (getEventStatus_cancelled_spec 0 none (some "Upcoming")).2 (by decide) rfl⟩

/-! ## `src/lib/auth-utils.ts` -/

/-- The `errorMessages` object literal of `getFirebaseErrorMessage`. -/
def errorMessages : List (String × String) := [
  ("auth/invalid-email", "Please enter a valid email address."),
  ("auth/user-disabled", "This account has been disabled. Please contact support."),
  ("auth/user-not-found", "Invalid email or password."),
  ("auth/wrong-password", "Invalid email or password."),
  ("auth/invalid-credential", "Invalid email or password."),
  ("auth/invalid-login-credentials", "Invalid email or password."),
  ("auth/email-already-in-use", "This email is already registered. Please sign in instead."),
  ("auth/weak-password", "Password must be at least 6 characters long."),
  ("auth/operation-not-allowed", "This sign-in method is not enabled. Please contact support."),
  ("auth/popup-blocked", "Popup was blocked. Please allow popups for this site."),
  ("auth/popup-closed-by-user", "Sign-in was cancelled."),
  ("auth/cancelled-popup-request", "Sign-in was cancelled."),
  ("auth/unauthorized-domain", "This domain is not authorized. Please contact support."),
  ("auth/account-exists-with-different-credential",
    "An account already exists with this email. Please sign in using your original method."),
  ("auth/network-request-failed", "Network error. Please check your connection and try again."),
  ("auth/too-many-requests", "Too many attempts. Please try again later."),
  ("auth/requires-recent-login", "Please sign out and sign in again to perform this action.")]

/-- The property names a plain JS object literal inherits from
`Object.prototype`, every one of which reads back as a truthy non-string value
(a function, or for `__proto__` the prototype object itself). -/
def objectProtoKeys : List String :=
  ["constructor", "hasOwnProperty", "isPrototypeOf", "propertyIsEnumerable",
   "toLocaleString", "toString", "valueOf", "__defineGetter__", "__defineSetter__",
   "__lookupGetter__", "__lookupSetter__", "__proto__"]

/-- The runtime value of a JS property read `obj[key]` on a string-valued
object literal: an own string property, an inherited truthy `Object.prototype`
member (identified here by its name), or `undefined`. -/
inductive JsPropValue where
  | str (s : String)
  | protoMember (name : String)
  | undef
deriving DecidableEq

/-- JS property access `obj[key]` on an object literal with string values:
own properties first, then the `Object.prototype` chain, else `undefined`. -/
def jsIndex (own : List (String × String)) (key : String) : JsPropValue :=
  match own.lookup key with
  | some v => JsPropValue.str v
  | none =>
      if objectProtoKeys.contains key then JsPropValue.protoMember key
      else JsPropValue.undef

/-- JS `x || d` on a property-read result: `undefined` and the empty string
are falsy; an inherited `Object.prototype` member is truthy. -/
def jsOrProp (x : JsPropValue) (d : String) : JsPropValue :=
  match x with
  | JsPropValue.str v => if v = "" then JsPropValue.str d else JsPropValue.str v
  | JsPropValue.protoMember n => JsPropValue.protoMember n
  | JsPropValue.undef => JsPropValue.str d

/-- `getFirebaseErrorMessage`: `errorMessages[errorCode] || fallback`.  The
object indexing follows the JS prototype chain, so for a key such as
"toString" it returns the inherited truthy member, not the fallback. -/
def getFirebaseErrorMessage (errorCode : String) : JsPropValue :=
  jsOrProp (jsIndex errorMessages errorCode)
    "An unexpected error occurred. Please try again."

theorem lookup_eq_some_of_mem {l : List (String × String)} {k v : String}
    (hnd : (l.map Prod.fst).Nodup) (h : (k, v) ∈ l) : l.lookup k = some v := by
  induction l with
  | nil => simp at h
  | cons p t ih =>
    rcases p with ⟨a, b⟩
    simp only [List.map_cons, List.nodup_cons] at hnd
    rcases List.mem_cons.mp h with he | hm
    · rw [Prod.mk.injEq] at he
      rw [he.1, he.2]
      simp [List.lookup]
    · have hk : (k == a) = false := by
        rw [beq_eq_false_iff_ne]
        intro hkeq
        refine hnd.1 ?_
        rw [← hkeq]
        exact List.mem_map_of_mem Prod.fst hm
      simp only [List.lookup, hk]
      exact ih hnd.2 hm

theorem lookup_eq_none_of_not_mem {l : List (String × String)} {k : String}
    (h : k ∉ l.map Prod.fst) : l.lookup k = none := by
  induction l with
  | nil => rfl
  | cons p t ih =>
    rcases p with ⟨a, b⟩
    simp only [List.map_cons, List.mem_cons] at h
    push_neg at h
    have hk : (k == a) = false := beq_eq_false_iff_ne.mpr h.1
    simp only [List.lookup, hk]
    exact ih h.2

/-- C7 counterexample: "toString" is not a key of the error table, yet the
object indexing finds the inherited truthy `Object.prototype.toString`, so
`errorMessages[errorCode] || fallback` returns that member — not the generic
fallback string the claim requires for every string outside the table. -/
theorem getFirebaseErrorMessage_proto_cx :
    "toString" ∉ errorMessages.map Prod.fst
    ∧ getFirebaseErrorMessage "toString" = JsPropValue.protoMember "toString"
    ∧ JsPropValue.protoMember "toString"
        ≠ JsPropValue.str "An unexpected error occurred. Please try again." :=
  ⟨by decide, by decide, by decide⟩

/-- C7 amended: `getFirebaseErrorMessage` is total; for each code in its fixed
table it returns the corresponding static string (in particular the three
credential codes all map to "Invalid email or password."); for every string
that is neither a table key nor the name of an inherited `Object.prototype`
member it returns the generic fallback; for an inherited `Object.prototype`
member name (such as "toString") it instead returns that inherited truthy
member. -/
theorem getFirebaseErrorMessage_table_spec (code : String) :
    (∀ msg, (code, msg) ∈ errorMessages →
        getFirebaseErrorMessage code = JsPropValue.str msg)
  ∧ (code ∉ errorMessages.map Prod.fst → code ∉ objectProtoKeys →
      getFirebaseErrorMessage code
        = JsPropValue.str "An unexpected error occurred. Please try again.")
  ∧ (code ∉ errorMessages.map Prod.fst → code ∈ objectProtoKeys →
      getFirebaseErrorMessage code = JsPropValue.protoMember code)
  ∧ getFirebaseErrorMessage "auth/user-not-found"
      = JsPropValue.str "Invalid email or password."
  ∧ getFirebaseErrorMessage "auth/wrong-password"
      = JsPropValue.str "Invalid email or password."
  ∧ getFirebaseErrorMessage "auth/invalid-credential"
      = JsPropValue.str "Invalid email or password." := by
  refine ⟨?_, ?_, ?_, by decide, by decide, by decide⟩
  · intro msg hmem
    have hnd : (errorMessages.map Prod.fst).Nodup := by decide
    have hne : msg ≠ "" := by
      have hall : ∀ p ∈ errorMessages, p.2 ≠ "" := by decide
      exact hall (code, msg) hmem
    unfold getFirebaseErrorMessage jsIndex
    rw [lookup_eq_some_of_mem hnd hmem]
    simp [jsOrProp, hne]
  · intro h1 h2
    unfold getFirebaseErrorMessage jsIndex
    rw [lookup_eq_none_of_not_mem h1]
    simp [jsOrProp, h2]
  · intro h1 h2
    unfold getFirebaseErrorMessage jsIndex
    rw [lookup_eq_none_of_not_mem h1]
    simp [jsOrProp, h2]

theorem getFirebaseErrorMessage_table_spec_witness :
    getFirebaseErrorMessage "auth/weak-password"
        = JsPropValue.str "Password must be at least 6 characters long."
    ∧ getFirebaseErrorMessage "not-a-code"
        = JsPropValue.str "An unexpected error occurred. Please try again."
    ∧ getFirebaseErrorMessage "valueOf" = JsPropValue.protoMember "valueOf" :=
  ⟨(getFirebaseErrorMessage_table_spec "auth/weak-password").1 _ (by decide),
   (getFirebaseErrorMessage_table_spec "not-a-code").2.1 (by decide) (by decide),
   (getFirebaseErrorMessage_table_spec "valueOf").2.2.1 (by decide) (by decide)⟩

/-! ## `src/lib/error-utils.ts` -/

/-- The `ApiResponse` shape of `error-utils.ts`; absent optional fields are
`none`.  `message`/`error` hold runtime JS values: they are strings on every
path except a `FirebaseError` whose code names an inherited
`Object.prototype` member. -/
structure ApiResponse (T : Type) where
  success : Bool
  data : Option T
  message : Option JsPropValue
  error : Option JsPropValue

/-- The JS value thrown by a rejected promise, as `createErrorResponse`
discriminates it: a `FirebaseError` (carrying its `code`), a standard `Error`
(carrying its `message`), a plain string, or anything else. -/
inductive JsValue where
  | firebaseError (code : String)
  | errorObj (message : String)
  | str (s : String)
  | other

/-- `createSuccessResponse`. -/
def createSuccessResponse {T : Type} (data : Option T) (message : Option String) :
    ApiResponse T :=
  ⟨true, data, message.map JsPropValue.str, none⟩

/-- `createErrorResponse`: start from `userMessage || generic`, then override
by the runtime class of the thrown value. -/
def createErrorResponse {T : Type} (error : JsValue) (userMessage : Option String) :
    ApiResponse T :=
  let base := JsPropValue.str
    (jsOr userMessage "An unexpected error occurred. Please try again.")
  let errorMessage := match error with
    | JsValue.firebaseError code => getFirebaseErrorMessage code
    | JsValue.errorObj msg => JsPropValue.str (jsOr userMessage msg)
    | JsValue.str s => JsPropValue.str s
    | JsValue.other => base
  ⟨false, none, some errorMessage, some errorMessage⟩

/-- The outcome of the awaited `fn()` inside `handleAsync`: the promise either
resolves with a value or rejects with a thrown JS value. -/
inductive AsyncOutcome (T : Type) where
  | resolved (v : T)
  | rejected (e : JsValue)

/-- `handleAsync`: the try/catch wrapper.  It is a total function here, which
is the embedding of "never itself rejects". -/
def handleAsync {T : Type} (fn : AsyncOutcome T) (userMessage : Option String) :
    ApiResponse T :=
  match fn with
  | AsyncOutcome.resolved v => createSuccessResponse (some v) none
  | AsyncOutcome.rejected e => createErrorResponse e userMessage

/-- C6 counterexample: a rejection with a value that is neither a
`FirebaseError`, an `Error`, nor a string, combined with a caller-supplied
`userMessage`, yields that message — not the generic
"An unexpected error occurred. Please try again." the claim requires for
"any other value". -/
theorem handleAsync_other_value_cx :
    (handleAsync (AsyncOutcome.rejected JsValue.other)
        (some "Custom failure") : ApiResponse Nat).error
      = some (JsPropValue.str "Custom failure")
    ∧ ("Custom failure" : String) ≠ "An unexpected error occurred. Please try again." := by
  exact ⟨rfl, by decide⟩

/-- C6 amended: `handleAsync` never rejects (it is total): a resolved value `v`
yields success with `data = v`; a rejection yields failure with `error` and
`message` both equal to the derived string — a `FirebaseError` code mapped
through `getFirebaseErrorMessage`, an `Error` yielding the caller-supplied
`userMessage` (when provided and nonempty) or else the error's own message, a
string used verbatim, and any other value yielding the caller-supplied
`userMessage` (when provided and nonempty) or else the generic fallback. -/
theorem handleAsync_spec (T : Type) (fn : AsyncOutcome T) (userMessage : Option String) :
    handleAsync fn userMessage =
      match fn with
      | AsyncOutcome.resolved v => ApiResponse.mk true (some v) none none
      | AsyncOutcome.rejected e =>
          let m := match e with
            | JsValue.firebaseError code => getFirebaseErrorMessage code
            | JsValue.errorObj msg => JsPropValue.str (jsOr userMessage msg)
            | JsValue.str s => JsPropValue.str s
            | JsValue.other => JsPropValue.str
                (jsOr userMessage "An unexpected error occurred. Please try again.")
          ApiResponse.mk false none (some m) (some m) := by
  rcases fn with v | e
  · rfl
  · rcases e with code | msg | s | _ <;> rfl

/-! ## Data model (`src/lib/types.ts`) and registration operations

Firestore document ids are modelled as `Nat`, drawn from a `nextId` counter in
the database state; `serverTimestamp()` sentinel fields are modelled by their
presence (`hasConfirmedAt`); fields a write never sets are `none`/`false`. -/

structure Event where
  eventId : String
  eventName : String
  slotsAvailable : Nat
deriving DecidableEq

structure Registration where
  registrationId : Nat
  eventId : String
  playerId : String
  isPrimary : Bool
  status : String
  partnerStatus : Option String
  player2Id : Option String
  teamId : Option Nat
  waitlistPosition : Option Nat
  hasConfirmedAt : Bool
deriving DecidableEq

structure Team where
  teamId : Nat
  eventId : String
  player1Id : String
  player2Id : String
  player1Confirmed : Bool
  player2Confirmed : Bool
deriving DecidableEq

structure Notification where
  notificationId : Nat
  userId : String
  type : String
  title : String
  message : String
  eventId : Option String
  fromUserId : Option String
  read : Bool
deriving DecidableEq

/-- The Firestore collections touched by the registration features. -/
structure DbState where
  registrations : List Registration
  teams : List Team
  notifications : List Notification
  nextId : Nat
deriving DecidableEq

def emptyDb : DbState := ⟨[], [], [], 0⟩

/-- The transaction query `where eventId == e && status == "CONFIRMED"`,
counted (`regSnapshot.size`). -/
def confirmedCount (db : DbState) (eventId : String) : Nat :=
  (db.registrations.filter
    (fun r => r.eventId == eventId && r.status == "CONFIRMED")).length

/-- The query `where eventId == e && status == "WAITLIST"`, counted. -/
def waitlistCount (db : DbState) (eventId : String) : Nat :=
  (db.registrations.filter
    (fun r => r.eventId == eventId && r.status == "WAITLIST")).length

/-- `RegisterDialog.handleRegister` (event-filters.tsx): the body of the
registration transaction. -/
def handleRegister (db : DbState) (event : Event) (uid : String) : DbState :=
  let isConfirmed := confirmedCount db event.eventId < event.slotsAvailable
  let newReg : Registration :=
    { registrationId := db.nextId
      eventId := event.eventId
      playerId := uid
      isPrimary := true
      status := if isConfirmed then "CONFIRMED" else "WAITLIST"
      partnerStatus := none
      player2Id := none
      teamId := none
      waitlistPosition := if isConfirmed then none
        else some (waitlistCount db event.eventId + 1)
      hasConfirmedAt := isConfirmed }
  { db with registrations := db.registrations ++ [newReg], nextId := db.nextId + 1 }

/-- `TeamRegisterDialog.handleRegisterWithPartner` (event-card.tsx): the body
of the team-registration transaction — create a team, one registration for the
initiator, and a partner-invite notification. -/
def handleRegisterWithPartner (db : DbState) (event : Event) (uid : String)
    (displayName : Option String) (email : String) (partnerUid : String) : DbState :=
  let isConfirmed := confirmedCount db event.eventId < event.slotsAvailable
  let team : Team :=
    { teamId := db.nextId
      eventId := event.eventId
      player1Id := uid
      player2Id := partnerUid
      player1Confirmed := true
      player2Confirmed := false }
  let reg1 : Registration :=
    { registrationId := db.nextId + 1
      eventId := event.eventId
      playerId := uid
      isPrimary := true
      status := if isConfirmed then "CONFIRMED" else "WAITLIST"
      partnerStatus := some "PENDING"
      player2Id := some partnerUid
      teamId := some db.nextId
      waitlistPosition := none
      hasConfirmedAt := isConfirmed }
  let notif : Notification :=
    { notificationId := db.nextId + 2
      userId := partnerUid
      type := "partner_invite"
      title := "Partner Invite"
      message := jsOr displayName email ++ " wants to team up with you for "
        ++ event.eventName
      eventId := some event.eventId
      fromUserId := some uid
      read := false }
  { db with
      registrations := db.registrations ++ [reg1]
      teams := db.teams ++ [team]
      notifications := db.notifications ++ [notif]
      nextId := db.nextId + 3 }

/-- `TeamRegisterDialog.handleRegisterSolo` (event-card.tsx): `addDoc` of a
registration that always starts on the waitlist ("Singles always start on
waitlist until matched") — no transaction, no capacity read. -/
def handleRegisterSolo (db : DbState) (event : Event) (uid : String) : DbState :=
  let newReg : Registration :=
    { registrationId := db.nextId
      eventId := event.eventId
      playerId := uid
      isPrimary := true
      status := "WAITLIST"
      partnerStatus := some "NONE"
      player2Id := none
      teamId := none
      waitlistPosition := none
      hasConfirmedAt := false }
  { db with registrations := db.registrations ++ [newReg], nextId := db.nextId + 1 }

/-- `promoteFromWaitlist` (admin registrations page): `updateDoc` on the
targeted registration with `status: "CONFIRMED", waitlistPosition: null`. -/
def promoteFromWaitlist (db : DbState) (registrationId : Nat) : DbState :=
  { db with registrations := db.registrations.map (fun r =>
      if r.registrationId == registrationId then
        { r with status := "CONFIRMED", waitlistPosition := none }
      else r) }

/-- `removeRegistration` (admin registrations page) and
`RegisterDialog.handleWithdraw` (event-filters.tsx): `deleteDoc` of one
registration. -/
def removeRegistration (db : DbState) (registrationId : Nat) : DbState :=
  { db with registrations :=
      db.registrations.filter (fun r => !(r.registrationId == registrationId)) }

/-- `TeamRegisterDialog.handleWithdraw` (event-card.tsx): dissolve the team
(delete the first team doc matching the registration's teamId), notify the
partner if any, then delete the registration. -/
def handleWithdraw (db : DbState) (event : Event) (uid : String)
    (userRegistration : Registration) : DbState :=
  let db1 :=
    match userRegistration.teamId with
    | none => db
    | some tid =>
        let db2 := { db with teams := db.teams.eraseP (fun t => t.teamId == tid) }
        match userRegistration.player2Id with
        | none => db2
        | some p2 =>
            let notif : Notification :=
              { notificationId := db2.nextId
                userId := p2
                type := "team_cancelled"
                title := "Team Cancelled"
                message := "Your partner cancelled the registration for "
                  ++ event.eventName
                  ++ ". You\x27ve been moved to single players."
                eventId := some event.eventId
                fromUserId := some uid
                read := false }
            { db2 with
                notifications := db2.notifications ++ [notif]
                nextId := db2.nextId + 1 }
  { db1 with registrations := db1.registrations.filter (fun r =>
      !(r.registrationId == userRegistration.registrationId)) }

/-- The registration-mutating operations enumerated by the invariant claim. -/
inductive Op where
  | register (event : Event) (uid : String)
  | registerWithPartner (event : Event) (uid : String) (displayName : Option String)
      (email : String) (partnerUid : String)
  | registerSolo (event : Event) (uid : String)
  | promote (registrationId : Nat)
  | withdraw (event : Event) (uid : String) (userRegistration : Registration)
  | remove (registrationId : Nat)
deriving DecidableEq

def applyOp (db : DbState) : Op → DbState
  | Op.register ev uid => handleRegister db ev uid
  | Op.registerWithPartner ev uid dn em pid => handleRegisterWithPartner db ev uid dn em pid
  | Op.registerSolo ev uid => handleRegisterSolo db ev uid
  | Op.promote rid => promoteFromWaitlist db rid
  | Op.withdraw ev uid reg => handleWithdraw db ev uid reg
  | Op.remove rid => removeRegistration db rid

/-- Sequential execution of a list of operations. -/
def runOps (db : DbState) (ops : List Op) : DbState :=
  ops.foldl applyOp db

/-- The event an operation registers for, if it creates a registration. -/
def opRegistrationEvent : Op → Option Event
  | Op.register ev _ => some ev
  | Op.registerWithPartner ev _ _ _ _ => some ev
  | Op.registerSolo ev _ => some ev
  | _ => none

def Op.isPromote : Op → Bool
  | Op.promote _ => true
  | _ => false

/-! ### Counting lemmas -/

theorem length_filter_append_singleton {α : Type} (p : α → Bool) (l : List α) (r : α) :
    (List.filter p (l ++ [r])).length
      = (List.filter p l).length + (if p r then 1 else 0) := by
  rw [List.filter_append]
  rcases hp : p r with _ | _
  · simp [List.filter, hp]
  · simp [List.filter, hp]

theorem length_filter_of_filter_le {α : Type} (p q : α → Bool) (l : List α) :
    (List.filter p (List.filter q l)).length ≤ (List.filter p l).length :=
  List.Sublist.length_le (List.Sublist.filter p (List.filter_sublist l))

theorem confirmedCount_handleRegister (db : DbState) (ev2 : Event) (uid : String)
    (eid : String) :
    confirmedCount (handleRegister db ev2 uid) eid
      = confirmedCount db eid
        + (if (ev2.eventId == eid
            && ((if confirmedCount db ev2.eventId < ev2.slotsAvailable
                then "CONFIRMED" else "WAITLIST") == "CONFIRMED")) then 1 else 0) := by
  show (List.filter _ (db.registrations ++ [_])).length = _
  rw [length_filter_append_singleton]
  rfl

theorem confirmedCount_handleRegisterWithPartner (db : DbState) (ev2 : Event)
    (uid : String) (dn : Option String) (em : String) (pid : String) (eid : String) :
    confirmedCount (handleRegisterWithPartner db ev2 uid dn em pid) eid
      = confirmedCount db eid
        + (if (ev2.eventId == eid
            && ((if confirmedCount db ev2.eventId < ev2.slotsAvailable
                then "CONFIRMED" else "WAITLIST") == "CONFIRMED")) then 1 else 0) := by
  show (List.filter _ (db.registrations ++ [_])).length = _
  rw [length_filter_append_singleton]
  rfl

theorem confirmedCount_handleRegisterSolo (db : DbState) (ev2 : Event) (uid : String)
    (eid : String) :
    confirmedCount (handleRegisterSolo db ev2 uid) eid = confirmedCount db eid := by
  show (List.filter _ (db.registrations ++ [_])).length = _
  rw [length_filter_append_singleton]
  simp only [show (("WAITLIST" : String) == "CONFIRMED") = false from by decide,
    Bool.and_false, Bool.false_eq_true, if_false, Nat.add_zero]
  rfl

theorem handleWithdraw_registrations (db : DbState) (ev2 : Event) (uid : String)
    (reg : Registration) :
    (handleWithdraw db ev2 uid reg).registrations
      = db.registrations.filter (fun r =>
          !(r.registrationId == reg.registrationId)) := by
  unfold handleWithdraw
  rcases htid : reg.teamId with _ | tid
  · simp only [htid]
  · simp only [htid]
    rcases hp2 : reg.player2Id with _ | p2 <;> simp only [hp2]

theorem confirmedCount_handleWithdraw_le (db : DbState) (ev2 : Event) (uid : String)
    (reg : Registration) (eid : String) :
    confirmedCount (handleWithdraw db ev2 uid reg) eid ≤ confirmedCount db eid := by
  unfold confirmedCount
  rw [handleWithdraw_registrations]
  exact length_filter_of_filter_le _ _ _

theorem confirmedCount_removeRegistration_le (db : DbState) (rid : Nat) (eid : String) :
    confirmedCount (removeRegistration db rid) eid ≤ confirmedCount db eid :=
  length_filter_of_filter_le _ _ _

theorem applyOp_preserves_capacity (ev : Event) (op : Op) (db : DbState)
    (hnp : op.isPromote = false)
    (hcons : ∀ ev2, opRegistrationEvent op = some ev2 → ev2.eventId = ev.eventId →
        ev2.slotsAvailable = ev.slotsAvailable)
    (hinv : confirmedCount db ev.eventId ≤ ev.slotsAvailable) :
    confirmedCount (applyOp db op) ev.eventId ≤ ev.slotsAvailable := by
  cases op with
  | register ev2 uid =>
    rw [show applyOp db (Op.register ev2 uid) = handleRegister db ev2 uid from rfl,
      confirmedCount_handleRegister]
    by_cases he : ev2.eventId = ev.eventId
    · have hs : ev2.slotsAvailable = ev.slotsAvailable := hcons ev2 rfl he
      by_cases hc : confirmedCount db ev.eventId < ev.slotsAvailable
      · simp only [he, hs, hc, if_true, beq_self_eq_true, Bool.and_true, if_pos]
        omega
      · simp only [he, hs, hc, if_false,
          show (("WAITLIST" : String) == "CONFIRMED") = false from by decide,
          Bool.and_false, Bool.false_eq_true]
        simpa using hinv
    · have hb : (ev2.eventId == ev.eventId) = false := beq_eq_false_iff_ne.mpr he
      simp only [hb, Bool.false_and, Bool.false_eq_true, if_false]
      simpa using hinv
  | registerWithPartner ev2 uid dn em pid =>
    rw [show applyOp db (Op.registerWithPartner ev2 uid dn em pid)
        = handleRegisterWithPartner db ev2 uid dn em pid from rfl,
      confirmedCount_handleRegisterWithPartner]
    by_cases he : ev2.eventId = ev.eventId
    · have hs : ev2.slotsAvailable = ev.slotsAvailable := hcons ev2 rfl he
      by_cases hc : confirmedCount db ev.eventId < ev.slotsAvailable
      · simp only [he, hs, hc, if_true, beq_self_eq_true, Bool.and_true, if_pos]
        omega
      · simp only [he, hs, hc, if_false,
          show (("WAITLIST" : String) == "CONFIRMED") = false from by decide,
          Bool.and_false, Bool.false_eq_true]
        simpa using hinv
    · have hb : (ev2.eventId == ev.eventId) = false := beq_eq_false_iff_ne.mpr he
      simp only [hb, Bool.false_and, Bool.false_eq_true, if_false]
      simpa using hinv
  | registerSolo ev2 uid =>
    rw [show applyOp db (Op.registerSolo ev2 uid) = handleRegisterSolo db ev2 uid from rfl,
      confirmedCount_handleRegisterSolo]
    exact hinv
  | promote rid => simp [Op.isPromote] at hnp
  | withdraw ev2 uid reg =>
    exact le_trans (confirmedCount_handleWithdraw_le db ev2 uid reg ev.eventId) hinv
  | remove rid =>
    exact le_trans (confirmedCount_removeRegistration_le db rid ev.eventId) hinv

/-- C1: both the solo registration transaction and the team
registration-with-partner transaction append exactly one new registration
whose status is "CONFIRMED" precisely when the confirmed count read in the
transaction before the write is strictly below `slotsAvailable`, and
"WAITLIST" otherwise — with, in the solo case, `waitlistPosition` equal to
the prior waitlist count plus one (and null when confirmed). -/
theorem registration_status_capacity_spec (db : DbState) (ev : Event)
    (uid : String) (dn : Option String) (em : String) (partnerUid : String) :
    (∃ r, (handleRegister db ev uid).registrations = db.registrations ++ [r]
      ∧ r.status = (if confirmedCount db ev.eventId < ev.slotsAvailable
          then "CONFIRMED" else "WAITLIST")
      ∧ r.waitlistPosition = (if confirmedCount db ev.eventId < ev.slotsAvailable
          then none else some (waitlistCount db ev.eventId + 1)))
  ∧ (∃ r, (handleRegisterWithPartner db ev uid dn em partnerUid).registrations
        = db.registrations ++ [r]
      ∧ r.status = (if confirmedCount db ev.eventId < ev.slotsAvailable
          then "CONFIRMED" else "WAITLIST")) :=
  ⟨⟨_, rfl, rfl, rfl⟩, ⟨_, rfl, rfl⟩⟩

/-- C2 counterexample: capacity 1; two solo registrations followed by an admin
waitlist promotion is a sequential execution of the enumerated operations
that ends with 2 CONFIRMED registrations for an event with
`slotsAvailable = 1` — `promoteFromWaitlist` performs no capacity check. -/
theorem promote_exceeds_capacity_cx :
    confirmedCount (runOps emptyDb
        [Op.register ⟨"e1", "Event 1", 1⟩ "p1",
         Op.register ⟨"e1", "Event 1", 1⟩ "p2",
         Op.promote 1]) "e1" = 2
    ∧ (⟨"e1", "Event 1", 1⟩ : Event).slotsAvailable < 2 :=
  ⟨rfl, by decide⟩

/-- C2 amended: for every event, under every sequential execution of the
registration-mutating operations **other than admin waitlist promotion**
(solo registration, team registration, solo team-event registration,
withdrawal, admin removal), the number of CONFIRMED registrations for that
event never exceeds the event's `slotsAvailable`, provided every operation
registering for that event carries its capacity and the bound holds
initially.  Promotion must be excluded: it flips a registration to CONFIRMED
without any capacity check. -/
theorem capacity_invariant_without_promotion (ev : Event) (ops : List Op)
    (db : DbState)
    (hnp : ∀ op ∈ ops, op.isPromote = false)
    (hcons : ∀ op ∈ ops, ∀ ev2, opRegistrationEvent op = some ev2 →
        ev2.eventId = ev.eventId → ev2.slotsAvailable = ev.slotsAvailable)
    (hinv : confirmedCount db ev.eventId ≤ ev.slotsAvailable) :
    confirmedCount (runOps db ops) ev.eventId ≤ ev.slotsAvailable := by
  induction ops generalizing db with
  | nil => exact hinv
  | cons op rest ih =>
    rw [show runOps db (op :: rest) = runOps (applyOp db op) rest from rfl]
    refine ih (applyOp db op) (fun o ho => hnp o (List.mem_cons_of_mem _ ho))
      (fun o ho => hcons o (List.mem_cons_of_mem _ ho)) ?_
    exact applyOp_preserves_capacity ev op db (hnp op (List.mem_cons_self _ _))
      (hcons op (List.mem_cons_self _ _)) hinv

theorem capacity_invariant_without_promotion_witness :
    confirmedCount (runOps emptyDb [Op.register ⟨"e1", "Event 1", 1⟩ "p1"]) "e1" ≤ 1 :=
  capacity_invariant_without_promotion ⟨"e1", "Event 1", 1⟩
    [Op.register ⟨"e1", "Event 1", 1⟩ "p1"] emptyDb
    (by decide)
    (by
      intro op hop ev2 hev2 _
      have ho : op = Op.register ⟨"e1", "Event 1", 1⟩ "p1" := List.mem_singleton.mp hop
      subst ho
      injection hev2 with h
      rw [← h])
    (by decide)

/-- C4 counterexample: with free capacity (0 confirmed registrations, 4
slots), `handleRegisterSolo` still writes status "WAITLIST"; the
comparison-determined status would be "CONFIRMED", and the handler performs
no capacity read at all. -/
theorem handleRegisterSolo_capacity_cx :
    ((handleRegisterSolo emptyDb ⟨"e1", "Event 1", 4⟩ "p1").registrations.map
        Registration.status) = ["WAITLIST"]
    ∧ confirmedCount emptyDb "e1" < 4
    ∧ (if confirmedCount emptyDb "e1" < 4 then "CONFIRMED" else "WAITLIST") = "CONFIRMED"
    ∧ ("WAITLIST" : String) ≠ "CONFIRMED" :=
  ⟨rfl, by decide, by decide, by decide⟩

/-- C4 amended: solo registration (`handleRegister`) and team
registration-with-partner (`handleRegisterWithPartner`) read the confirmed
count for the event and write the status determined by comparing it with
`slotsAvailable`; solo registration within a team event
(`handleRegisterSolo`) performs no such read and always writes "WAITLIST". -/
theorem registration_capacity_read_spec (db : DbState) (ev : Event)
    (uid : String) (dn : Option String) (em : String) (partnerUid : String) :
    ((handleRegister db ev uid).registrations.getLast?).map Registration.status
      = some (if confirmedCount db ev.eventId < ev.slotsAvailable
          then "CONFIRMED" else "WAITLIST")
  ∧ ((handleRegisterWithPartner db ev uid dn em partnerUid).registrations.getLast?).map
        Registration.status
      = some (if confirmedCount db ev.eventId < ev.slotsAvailable
          then "CONFIRMED" else "WAITLIST")
  ∧ ((handleRegisterSolo db ev uid).registrations.getLast?).map Registration.status
      = some "WAITLIST" := by
  refine ⟨?_, ?_, ?_⟩ <;>
  · show (List.getLast? (_ ++ [_])).map _ = _
    rw [List.getLast?_concat]
    rfl

/-- C5: the admin waitlist promotion touches only the registrations
collection, and there only the targeted document, setting `status` to
"CONFIRMED" and `waitlistPosition` to null while preserving every other
field; teams, notifications (hence in particular no "waitlist_promotion"
notification) and the document-id counter are unchanged. -/
theorem promoteFromWaitlist_frame (db : DbState) (rid : Nat) :
    (promoteFromWaitlist db rid).teams = db.teams
  ∧ (promoteFromWaitlist db rid).notifications = db.notifications
  ∧ (promoteFromWaitlist db rid).nextId = db.nextId
  ∧ List.Forall₂ (fun r r2 =>
      if r.registrationId = rid then
        r2.status = "CONFIRMED" ∧ r2.waitlistPosition = none
        ∧ r2.registrationId = r.registrationId ∧ r2.eventId = r.eventId
        ∧ r2.playerId = r.playerId ∧ r2.isPrimary = r.isPrimary
        ∧ r2.partnerStatus = r.partnerStatus ∧ r2.player2Id = r.player2Id
        ∧ r2.teamId = r.teamId ∧ r2.hasConfirmedAt = r.hasConfirmedAt
      else r2 = r)
      db.registrations (promoteFromWaitlist db rid).registrations := by
  refine ⟨rfl, rfl, rfl, ?_⟩
  rw [show (promoteFromWaitlist db rid).registrations
      = db.registrations.map (fun r =>
          if r.registrationId == rid then
            { r with status := "CONFIRMED", waitlistPosition := none }
          else r) from rfl]
  rw [List.forall₂_map_right_iff]
  refine List.forall₂_same.mpr ?_
  intro r hr
  by_cases h : r.registrationId = rid
  · simp [h]
  · simp [h]

/-! ## Admin registrations page: CSV export -/

/-- JS `Array.prototype.join(sep)`. -/
def jsJoin (sep : String) : List String → String
  | [] => ""
  | [x] => x
  | x :: y :: xs => x ++ sep ++ jsJoin sep (y :: xs)

theorem foldl_append_hoist (sep pre b : String) (t : List String) :
    pre ++ t.foldl (fun acc x => acc ++ sep ++ x) b
      = t.foldl (fun acc x => acc ++ sep ++ x) (pre ++ b) := by
  induction t generalizing b with
  | nil => rfl
  | cons c t ih =>
    show pre ++ t.foldl _ (b ++ sep ++ c) = t.foldl _ ((pre ++ b) ++ sep ++ c)
    rw [ih (b ++ sep ++ c)]
    congr 1
    simp [String.append_assoc]

theorem jsJoin_cons_foldl (sep a : String) (l : List String) :
    jsJoin sep (a :: l) = l.foldl (fun acc x => acc ++ sep ++ x) a := by
  induction l generalizing a with
  | nil => rfl
  | cons b t ih =>
    show a ++ sep ++ jsJoin sep (b :: t) = t.foldl _ (a ++ sep ++ b)
    rw [ih b]
    exact foldl_append_hoist sep (a ++ sep) b t

structure UserDoc where
  fullName : String
  email : String
  phone : Option String
deriving DecidableEq

/-- One entry of the admin page's `players` state: the user document joined
with the registration.  `registeredAtIso` models
`registration.registeredAt?.toDate?.()?.toISOString()` — `none` when the
timestamp is absent. -/
structure PlayerWithRegistration where
  user : UserDoc
  registrationStatus : String
  registeredAtIso : Option String
deriving DecidableEq

/-- `exportToCSV` (admin registrations page): a header row and one row per
player, each row joined with "," and the rows joined with newlines. -/
def exportToCSV (players : List PlayerWithRegistration) : String :=
  let headers := ["Name", "Email", "Phone", "Status", "Registered At"]
  let rows := players.map (fun p =>
    [p.user.fullName, p.user.email, jsOr p.user.phone "", p.registrationStatus,
      jsOr p.registeredAtIso ""])
  jsJoin "\n" ((headers :: rows).map (fun row => jsJoin "," row))

/-- C10: the produced file content is exactly the header line
"Name,Email,Phone,Status,Registered At" followed by one line per player —
fullName, email, phone (empty string when missing), registration status and
the ISO-8601 registeredAt timestamp (empty string when missing) joined by
commas, rows joined by newlines — with no quoting or escaping applied to any
field value (a field containing "," or a newline is spliced in verbatim). -/
theorem exportToCSV_spec (players : List PlayerWithRegistration) :
    exportToCSV players
      = players.foldl
          (fun acc p => acc ++ "\n" ++ p.user.fullName ++ "," ++ p.user.email ++ ","
            ++ jsOr p.user.phone "" ++ "," ++ p.registrationStatus ++ ","
            ++ jsOr p.registeredAtIso "")
          "Name,Email,Phone,Status,Registered At" := by
  simp only [exportToCSV, List.map_cons, jsJoin_cons_foldl, List.map_map, List.foldl_map,
    Function.comp]
  rw [show List.foldl (fun acc x => acc ++ "," ++ x) "Name"
      ["Email", "Phone", "Status", "Registered At"]
      = "Name,Email,Phone,Status,Registered At" from by decide]
  refine List.foldl_ext _ _ _ ?_
  intro acc p hp
  simp [List.foldl_cons, List.foldl_nil, String.append_assoc]

end EWP
